import Mathlib

/-!
Verification of the LogoVM transpiler front end: a shallow embedding of
`src/logoasm/symtable.py`, `src/logovm/loader.py` and the lexer of
`src/compiler/compiler.py`, together with proofs and refutations of the
specified properties.

Python dictionaries are modelled as insertion-ordered association lists,
Python strings as `String`, Python ints as `Int`, and a call that raises an
exception as `Except.error` carrying the raised value.
-/

/-- Exception values a modelled call can raise.  `attributeError`,
`typeError`, `valueError` and `exception` model the Python builtins of the
same names.  `undefinedReference` is Modelled from the spec: the class
`UndefinedReference` is imported by `loader.py` from `logovm.errors`, a file
that is not among the sources; per the spec the loader "fails fatally with an
undefined-reference error naming the function", so it is modelled as an
ordinary exception value carrying the kind and the function name. -/
inductive PyErr where
  | attributeError (msg : String)
  | typeError (msg : String)
  | valueError (msg : String)
  | exception (msg : String)
  | undefinedReference (kind name : String)
deriving DecidableEq, Repr

/-- Python `str.upper()` on the ASCII strings used by this program. -/
def pyUpper (s : String) : String :=
  ⟨s.data.map Char.toUpper⟩

/-- Python `s.startswith(pre)`. -/
def pyStartsWith (s pre : String) : Bool :=
  pre.data.isPrefixOf s.data

/-- Splits a character list at the first space, if any. -/
def splitAtFirstSpace : List Char → Option (List Char × List Char)
  | [] => none
  | c :: cs =>
    if c = ' ' then some ([], cs)
    else
      match splitAtFirstSpace cs with
      | none => none
      | some (a, b) => some (c :: a, b)

/-- Python `s.split(" ", 1)`: at most one split, at the first space; a string
with no space yields the one-element list `[s]`. -/
def pySplitOnce (s : String) : List String :=
  match splitAtFirstSpace s.data with
  | none => [s]
  | some (a, b) => [⟨a⟩, ⟨b⟩]

/-- A symbol-table entry (`__symtable` values are Python dicts; the fields
below are the keys this program ever stores: `name` and `type` are written by
`add_symbol`, `lineno`, `usage`, `code` and `pc` arrive through keyword
arguments).  An `Option` field is `none` when the key is absent. -/
structure SymEntry where
  name : String
  type : String
  lineno : Option Int
  usage : Option Int
  code : Option (List String)
  pc : Option Int
deriving DecidableEq, Repr

/-- Keyword arguments (`**kwargs`) passed to the symbol-table operations:
a field is `some v` when the keyword is present with value `v`. -/
structure Attrs where
  name : Option String
  type : Option String
  lineno : Option Int
  usage : Option Int
  code : Option (List String)
  pc : Option Int
deriving DecidableEq, Repr

/-- The keyword-argument record with no keywords present. -/
def emptyAttrs : Attrs := ⟨none, none, none, none, none, none⟩

/-- The keyword-argument record `pc=addr` used by the loader. -/
def pcOnly (addr : Nat) : Attrs := ⟨none, none, none, none, none, some (Int.ofNat addr)⟩

/-- The global dict `__symtable`, as an insertion-ordered association list
(Python dicts preserve insertion order and have unique keys). -/
abbrev SymTable := List (String × SymEntry)

/-- Python `d.get(k)` on the symbol table. -/
def dictGet : SymTable → String → Option SymEntry
  | [], _ => none
  | (k', v) :: rest, k => if k' = k then some v else dictGet rest k

/-- Python `d[k] = v`: replaces the value of an existing key in place,
otherwise appends the new key at the end. -/
def dictSet : SymTable → String → SymEntry → SymTable
  | [], k, v => [(k, v)]
  | (k', v') :: rest, k, v =>
    if k' = k then (k, v) :: rest else (k', v') :: dictSet rest k v

/-- Python `del d[k]` (dict keys are unique, so removing every pair with the
key equals removing the key). -/
def dictDel : SymTable → String → SymTable
  | [], _ => []
  | (k', v) :: rest, k => if k' = k then dictDel rest k else (k', v) :: dictDel rest k

/-- Python `dict.update(kwargs)` on an entry: each keyword present in `a`
overwrites the corresponding field of `e`. -/
def updateEntry (e : SymEntry) (a : Attrs) : SymEntry :=
  ⟨a.name.getD e.name,
   a.type.getD e.type,
   match a.lineno with | some v => some v | none => e.lineno,
   match a.usage with | some v => some v | none => e.usage,
   match a.code with | some v => some v | none => e.code,
   match a.pc with | some v => some v | none => e.pc⟩

/-- The source's `__tr_symbol`: returns the pair (translated name, original
spelling); translation uppercases exactly when the process-wide flag
`case_insensitive_symtable` (here the parameter `ci`) is set. -/
def tr_symbol (ci : Bool) (symbol : String) : String × String :=
  (if ci then pyUpper symbol else symbol, symbol)

/-- Raising `InternalError(msg)` in the source actually raises `TypeError`:
the constructor body reads `super.__init__(f"Internal error: {msg}")`, and
`super.__init__` (the builtin type `super`, not `super()`) is a slot wrapper
that rejects a `str` receiver.  The formatted message is evaluated before the
call but never reaches an exception object, so it is discarded here. -/
def raiseInternalError (_intendedMsg : String) : PyErr :=
  PyErr.typeError "descriptor __init__ requires a super object but received a str"

/-- The source's `add_symbol`.  On a fresh name it stores
`kwargs | name := translated, type := sym_type` under the translated name.
On an existing name (`if obj:` is true, since every stored entry is a
non-empty dict) the next line is `lineno = symbol.get("lineno")` — but
`symbol` is the translated *name string*, which has no attribute `get`, so
the call raises `AttributeError` before any redefinition check or merge. -/
def add_symbol (ci : Bool) (st : SymTable) (symbol : String) (sym_type : String)
    (kwargs : Attrs) : Except PyErr SymTable :=
  match dictGet st (tr_symbol ci symbol).1 with
  | some _obj =>
    Except.error (PyErr.attributeError "str object has no attribute get")
  | none =>
    Except.ok (dictSet st (tr_symbol ci symbol).1
      ⟨(tr_symbol ci symbol).1, sym_type, kwargs.lineno, kwargs.usage, kwargs.code, kwargs.pc⟩)

/-- The source's `set_symbol`: fails when the symbol is unknown, when the
keywords contain `name`, or when they contain `lineno` while the stored
`lineno` (default `-1`) is non-negative; otherwise merges the keywords into
the entry.  All three failures raise through `InternalError`, whose broken
constructor surfaces a `TypeError` (see `raiseInternalError`). -/
def set_symbol (ci : Bool) (st : SymTable) (symbol : String) (kwargs : Attrs) :
    Except PyErr SymTable :=
  match dictGet st (tr_symbol ci symbol).1 with
  | none =>
    Except.error (raiseInternalError ("Symbol not defined: " ++ (tr_symbol ci symbol).2))
  | some obj =>
    match kwargs.name with
    | some _ =>
      Except.error (raiseInternalError
        ("Cannot modify symbol '" ++ (tr_symbol ci symbol).2 ++ "' attribute 'name'."))
    | none =>
      if kwargs.lineno.isSome ∧ ¬ (Option.getD obj.lineno (-1) < 0) then
        Except.error (raiseInternalError
          ("Cannot modify symbol " ++ (tr_symbol ci symbol).2 ++ " attribute 'line'."))
      else
        Except.ok (dictSet st (tr_symbol ci symbol).1 (updateEntry obj kwargs))

/-- The source's `get_symbol`: `__symtable.get(__tr_symbol(symbol)[0])`. -/
def get_symbol (ci : Bool) (st : SymTable) (symbol : String) : Option SymEntry :=
  dictGet st (tr_symbol ci symbol).1

/-- The source's `get_symbols_by_class`: the sub-dict of entries whose
`type` equals the given class, in table order. -/
def get_symbols_by_class (st : SymTable) (symtype : String) : SymTable :=
  st.filter (fun p => p.2.type == symtype)

/-- The source's `remove_symbol`: deletes a present key, raises through
`InternalError` (hence `TypeError`) otherwise. -/
def remove_symbol (ci : Bool) (st : SymTable) (symbol : String) : Except PyErr SymTable :=
  match dictGet st (tr_symbol ci symbol).1 with
  | some _ => Except.ok (dictDel st (tr_symbol ci symbol).1)
  | none =>
    Except.error (raiseInternalError ("Symbol not defined: " ++ (tr_symbol ci symbol).2))

/-- The source's `increment_symbol_usage`: raises a plain `Exception` when
the symbol is unknown, otherwise adds `amount` to `usage` (default 0) via
`set_symbol`.  The Python default `amount=1` is passed explicitly here. -/
def increment_symbol_usage (ci : Bool) (st : SymTable) (symbol : String)
    (lineno : Int) (amount : Int) : Except PyErr SymTable :=
  match get_symbol ci st symbol with
  | none =>
    Except.error (PyErr.exception ("Unknown symbol:" ++ toString lineno ++ ":'" ++ symbol ++ "'"))
  | some sym =>
    set_symbol ci st symbol ⟨none, none, none, some (Option.getD sym.usage 0 + amount), none, none⟩

/-- One public symbol-table operation, used to state table-wide invariants. -/
inductive TableOp where
  | add (symbol sym_type : String) (kwargs : Attrs)
  | set (symbol : String) (kwargs : Attrs)
  | remove (symbol : String)
  | increment (symbol : String) (lineno amount : Int)

/-- Runs one public symbol-table operation. -/
def runOp (ci : Bool) (st : SymTable) : TableOp → Except PyErr SymTable
  | TableOp.add s ty kw => add_symbol ci st s ty kw
  | TableOp.set s kw => set_symbol ci st s kw
  | TableOp.remove s => remove_symbol ci st s
  | TableOp.increment s l a => increment_symbol_usage ci st s l a

/-- The label-resolution scan of `loader` over one function's `code` list:
`for addr, cmd in enumerate(code)`, resolving `LABEL <name>` instructions by
`set_symbol(name, pc=addr)`.  An instruction that starts with `LABEL` but
splits into fewer than two parts makes the unpacking assignment
`_, name = cmd.split(" ", 1)` raise `ValueError`. -/
def loadCode (ci : Bool) : SymTable → Nat → List String → Except PyErr SymTable
  | st, _, [] => Except.ok st
  | st, addr, cmd :: rest =>
    if pyStartsWith cmd "LABEL" then
      match pySplitOnce cmd with
      | [_marker, name] =>
        match set_symbol ci st name (pcOnly addr) with
        | Except.ok st2 => loadCode ci st2 (addr + 1) rest
        | Except.error e => Except.error e
      | _ => Except.error (PyErr.valueError "not enough values to unpack (expected 2, got 1)")
    else
      loadCode ci st (addr + 1) rest

/-- The per-function loop body of `loader` over the snapshot of FUNC
entries: a function with no `code` raises `UndefinedReference`; otherwise
its code is scanned for labels.  The snapshot values alias the live entries,
but the scan only ever writes `pc`, never `code`, so reading `code` from the
snapshot equals reading it from the live table. -/
def loaderGo (ci : Bool) : SymTable → List (String × SymEntry) → Except PyErr SymTable
  | st, [] => Except.ok st
  | st, (symbol, data) :: rest =>
    match data.code with
    | none => Except.error (PyErr.undefinedReference "FUNCTION" symbol)
    | some code =>
      match loadCode ci st 0 code with
      | Except.ok st2 => loaderGo ci st2 rest
      | Except.error e => Except.error e

/-- The source's `loader`: iterates over `get_symbols_by_class("FUNC")`. -/
def loader (ci : Bool) (st : SymTable) : Except PyErr SymTable :=
  loaderGo ci st (get_symbols_by_class st "FUNC")

/-- Token kinds of the lexer in `src/compiler/compiler.py`: the declared
`tokens` tuple together with the four extra values of the `reserved` dict
(`NOT`, `AND`, `OR`, `SET`), which the dict maps to even though they are not
declared as tokens. -/
inductive TokType where
  | TO | ID | NUMBER | END | COLON | IF | THEN | ELSE | WHILE
  | PLUS | MINUS | TIMES | DIVIDE | LPAREN | RPAREN
  | NOT | AND | OR | SET
deriving DecidableEq, Repr

/-- A token's value: the matched text, or the converted integer of a
`NUMBER` token. -/
inductive TokValue where
  | str (s : String)
  | num (n : Int)
deriving DecidableEq, Repr

/-- A lexer token: its type tag and its value. -/
structure Token where
  type : TokType
  value : TokValue
deriving DecidableEq, Repr

/-- Generic lookup in an association list with string keys (Python
`dict.get` with default handled at the call site). -/
def assocStr {α : Type} : List (String × α) → String → Option α
  | [], _ => none
  | (k, v) :: rest, s => if k = s then some v else assocStr rest s

/-- The `reserved` dict of the lexer, in source order.  Its keys are the
lowercase spellings of the reserved words. -/
def reserved : List (String × TokType) :=
  [("if", TokType.IF), ("then", TokType.THEN), ("else", TokType.ELSE),
   ("end", TokType.END), ("while", TokType.WHILE), ("not", TokType.NOT),
   ("to", TokType.TO), ("and", TokType.AND), ("or", TokType.OR),
   ("set", TokType.SET)]

/-- The `t_ID` rule: a matched identifier word is typed
`reserved.get(t.value.upper(), 'ID')`.  The lookup key is uppercased while
every key of `reserved` is lowercase. -/
def t_ID (w : String) : Token :=
  ⟨(assocStr reserved (pyUpper w)).getD TokType.ID, TokValue.str w⟩

/-- Character class of the first character of `t_ID`'s pattern
`[a-zA-Z_][a-zA-Z0-9_]*`. -/
def isIdentStart (c : Char) : Bool :=
  c.isAlpha || c = '_'

/-- Character class of the continuation characters of `t_ID`'s pattern. -/
def isIdentChar (c : Char) : Bool :=
  c.isAlphanum || c = '_'

/-- Splits a character list into its longest prefix satisfying `p` and the
rest (maximal-munch matching of a character-class regex). -/
def spanChars (p : Char → Bool) : List Char → List Char × List Char
  | [] => ([], [])
  | c :: cs =>
    if p c then
      match spanChars p cs with
      | (a, b) => (c :: a, b)
    else ([], c :: cs)

/-- Value of a decimal digit string (Python `int(t.value)` in `t_NUMBER`). -/
def decimalVal (cs : List Char) : Int :=
  Int.ofNat (cs.foldl (fun acc c => 10 * acc + (c.toNat - '0'.toNat)) 0)

/-- One pass of the lexer over a character list, mirroring the PLY rules of
the source: spaces and tabs are ignored (`t_ignore`), newlines are ignored
apart from line counting (`t_ignore_newline`), a maximal digit run is a
`NUMBER` (`t_NUMBER`), a maximal identifier run goes through `t_ID`, the
seven single-character operator rules produce their tokens, and any other
character is reported and skipped (`t_error`).  The fuel argument bounds the
number of steps; each step consumes at least one character, so fuel equal to
the input length always suffices. -/
def tokenizeAux : Nat → List Char → List Token
  | 0, _ => []
  | _ + 1, [] => []
  | fuel + 1, c :: cs =>
    if c = ' ' || c = '\t' || c = '\n' then tokenizeAux fuel cs
    else if c.isDigit then
      match spanChars Char.isDigit cs with
      | (ds, rest) => ⟨TokType.NUMBER, TokValue.num (decimalVal (c :: ds))⟩ :: tokenizeAux fuel rest
    else if isIdentStart c then
      match spanChars isIdentChar cs with
      | (ds, rest) => t_ID ⟨c :: ds⟩ :: tokenizeAux fuel rest
    else if c = ':' then ⟨TokType.COLON, TokValue.str ":"⟩ :: tokenizeAux fuel cs
    else if c = '+' then ⟨TokType.PLUS, TokValue.str "+"⟩ :: tokenizeAux fuel cs
    else if c = '-' then ⟨TokType.MINUS, TokValue.str "-"⟩ :: tokenizeAux fuel cs
    else if c = '*' then ⟨TokType.TIMES, TokValue.str "*"⟩ :: tokenizeAux fuel cs
    else if c = '/' then ⟨TokType.DIVIDE, TokValue.str "/"⟩ :: tokenizeAux fuel cs
    else if c = '(' then ⟨TokType.LPAREN, TokValue.str "("⟩ :: tokenizeAux fuel cs
    else if c = ')' then ⟨TokType.RPAREN, TokValue.str ")"⟩ :: tokenizeAux fuel cs
    else tokenizeAux fuel cs

/-- The lexer: token sequence of a source string. -/
def tokenize (s : String) : List Token :=
  tokenizeAux s.data.length s.data

/-- The source text of the claimed four-statement parse (spec section 8). -/
def c2Source : String :=
  "to v1 :length end\nv1 80\nif x then v1 80 end\n3 + 2"

/-- A Python value as the parser's semantic actions handle them: `None`,
ints, strings, tuples, lists, and the two node dicts built by `new_node`
(`{"name": ..., "children": ...}`) and `new_leaf`
(`{"name": ..., "value": ...}`). -/
inductive PyVal where
  | none
  | int (n : Int)
  | str (s : String)
  | tuple (l : List PyVal)
  | list (l : List PyVal)
  | node (name : String) (children : List PyVal)
  | leaf (name : String) (value : List PyVal)

/-- The source's `new_node(name, *children)`. -/
def new_node (name : String) (children : List PyVal) : PyVal :=
  PyVal.node name children

/-- The source's `new_leaf(name, *value)`. -/
def new_leaf (name : String) (value : List PyVal) : PyVal :=
  PyVal.leaf name value

/-- The body of the semantic action `p_declare_func`:
`p[0] = new_leaf('Declare function', p[1], p[2], p[3], p[4])` applied to the
values of `TO`, `ID`, `func_params` and `statements`. -/
def p_declare_func (p1 p2 p3 p4 : PyVal) : PyVal :=
  new_leaf "Declare function" [p1, p2, p3, p4]

/-- The semantic action `p_declare_func` with the process-wide symbol table
threaded explicitly.  The action body is exactly `p_declare_func`; it
contains no symbol-table call (the compiler module does not even import the
symbol table), so the table component passes through unchanged. -/
def p_declare_func_action (st : SymTable) (p1 p2 p3 p4 : PyVal) : PyVal × SymTable :=
  (p_declare_func p1 p2 p3 p4, st)

/-- The symbol table of the spec's loader example: a FUNC symbol `F` whose
generated code is `["LABEL L1", "PUSH 1", "LABEL L2"]`, with the label
symbols `L1` and `L2` already present. -/
def loaderDemoTable : SymTable :=
  [("F", ⟨"F", "FUNC", none, none, some ["LABEL L1", "PUSH 1", "LABEL L2"], none⟩),
   ("L1", ⟨"L1", "LABEL", none, none, none, none⟩),
   ("L2", ⟨"L2", "LABEL", none, none, none, none⟩)]

/-- Claim C6: with the case-insensitivity flag enabled, `add_symbol("Foo", VAR)`
followed by `get_symbol("FOO")` returns the entry created by the add (storage
and lookup both normalize to uppercase); with the flag disabled the same
lookup returns the absent indicator `None`. -/
theorem symtable_case_insensitive_roundtrip :
    (add_symbol true [] "Foo" "VAR" emptyAttrs).map
        (fun st => get_symbol true st "FOO") =
      Except.ok (some ⟨"FOO", "VAR", none, none, none, none⟩) ∧
    (add_symbol false [] "Foo" "VAR" emptyAttrs).map
        (fun st => get_symbol false st "FOO") =
      Except.ok none := by
  exact ⟨rfl, rfl⟩

/-- Claim C1 (failing behaviour): the first `add_symbol("p", FUNC, lineno=-1)`
creates the entry, but the second `add_symbol("p", FUNC, lineno=5)` — which
the spec says must merge the attributes into the forward-reference entry —
raises `AttributeError`, because `add_symbol` evaluates
`symbol.get("lineno")` on the *name string* instead of on the stored entry
`obj`.  No re-declaration of an existing name can ever merge or reach the
redefinition check. -/
theorem add_symbol_existing_raises_attribute_error :
    add_symbol false [] "p" "FUNC" ⟨none, none, some (-1), none, none, none⟩ =
      Except.ok [("p", ⟨"p", "FUNC", some (-1), none, none, none⟩)] ∧
    add_symbol false [("p", ⟨"p", "FUNC", some (-1), none, none, none⟩)] "p" "FUNC"
        ⟨none, none, some 5, none, none, none⟩ =
      Except.error (PyErr.attributeError "str object has no attribute get") := by
  exact ⟨rfl, rfl⟩

/-- Claim C2 (failing behaviour): lexing the claimed source text classifies
every reserved word (`to`, `end`, `if`, `then`) as a plain `ID` token,
because `t_ID` looks up the uppercased word in the lowercase-keyed
`reserved` dict.  The token stream therefore contains no `TO`, `IF`, `THEN`
or `END` token at all, and the grammar productions
`declare_func : TO ID func_params statements END` and
`if : IF ID THEN statements END` can never reduce on this input, so the
parse cannot be the claimed declaration / call / conditional / expression
sequence. -/
theorem c2_source_lexes_reserved_words_as_identifiers :
    tokenize c2Source =
      [⟨TokType.ID, TokValue.str "to"⟩, ⟨TokType.ID, TokValue.str "v1"⟩,
       ⟨TokType.COLON, TokValue.str ":"⟩, ⟨TokType.ID, TokValue.str "length"⟩,
       ⟨TokType.ID, TokValue.str "end"⟩, ⟨TokType.ID, TokValue.str "v1"⟩,
       ⟨TokType.NUMBER, TokValue.num 80⟩, ⟨TokType.ID, TokValue.str "if"⟩,
       ⟨TokType.ID, TokValue.str "x"⟩, ⟨TokType.ID, TokValue.str "then"⟩,
       ⟨TokType.ID, TokValue.str "v1"⟩, ⟨TokType.NUMBER, TokValue.num 80⟩,
       ⟨TokType.ID, TokValue.str "end"⟩, ⟨TokType.NUMBER, TokValue.num 3⟩,
       ⟨TokType.PLUS, TokValue.str "+"⟩, ⟨TokType.NUMBER, TokValue.num 2⟩] ∧
    (tokenize c2Source).all
      (fun t => t.type == TokType.ID || t.type == TokType.NUMBER ||
        t.type == TokType.COLON || t.type == TokType.PLUS) = true := by
  exact ⟨rfl, rfl⟩

/-- Claim C4 (failing behaviour): no input word is ever classified as a
reserved word.  `t_ID` looks up `t.value.upper()` in `reserved`, whose keys
are all lowercase, so the lookup always misses: `if` lexes as an `ID` token,
and the tokens for `IF`, `If` and `if` are three distinct `ID` tokens whose
values keep the original spellings.  The final conjunct shows the miss for
every reserved word of the dict at once. -/
theorem t_ID_never_matches_reserved :
    t_ID "if" = ⟨TokType.ID, TokValue.str "if"⟩ ∧
    tokenize "IF" = [⟨TokType.ID, TokValue.str "IF"⟩] ∧
    tokenize "If" = [⟨TokType.ID, TokValue.str "If"⟩] ∧
    tokenize "if" = [⟨TokType.ID, TokValue.str "if"⟩] ∧
    reserved.all (fun p => (assocStr reserved (pyUpper p.1)).isNone) = true := by
  exact ⟨rfl, rfl, rfl, rfl, rfl⟩

/-- Claim C5 (counterexample): running the semantic action of a procedure
declaration (`to v1 ... end`, so `p[1] = 'to'`, `p[2] = 'v1'`) on the empty
symbol table leaves the table empty and `get_symbol("v1")` absent — the
action registers nothing, contradicting the claim that the procedure name is
registered as a FUNC-class entry at declaration time. -/
theorem p_declare_func_registers_nothing :
    (p_declare_func_action [] (PyVal.str "to") (PyVal.str "v1") PyVal.none PyVal.none).2 =
      ([] : SymTable) ∧
    get_symbol false
      (p_declare_func_action [] (PyVal.str "to") (PyVal.str "v1") PyVal.none PyVal.none).2
      "v1" = none := by
  exact ⟨rfl, rfl⟩

/-- Claim C5 (amended): for every successfully parsed procedure declaration,
the semantic action only constructs the `Declare function` leaf node from
the keyword, the name, the parameter list and the body, and performs no
symbol-table operation: the table is returned unchanged. -/
theorem p_declare_func_builds_leaf_and_preserves_table
    (st : SymTable) (p1 p2 p3 p4 : PyVal) :
    p_declare_func_action st p1 p2 p3 p4 =
      (PyVal.leaf "Declare function" [p1, p2, p3, p4], st) := by
  exact rfl

/-- Claim C7 (counterexample): `set_symbol` only rejects updates of `name`
and of an already-real `lineno`; it does not guard `type`.  Updating symbol
`x` (created as class `VAR`) with the keyword `type='FUNC'` succeeds and
changes the entry's `type` — so `type` is not fixed after creation. -/
theorem set_symbol_can_change_type :
    set_symbol false [("x", ⟨"x", "VAR", none, none, none, none⟩)] "x"
        ⟨none, some "FUNC", none, none, none, none⟩ =
      Except.ok [("x", ⟨"x", "FUNC", none, none, none, none⟩)] ∧
    (get_symbol false [("x", ⟨"x", "FUNC", none, none, none, none⟩)] "x").map SymEntry.type =
      some "FUNC" := by
  exact ⟨rfl, rfl⟩

/-- Lookup after writing a key finds the written value. -/
theorem dictGet_dictSet_self (st : SymTable) (k : String) (v : SymEntry) :
    dictGet (dictSet st k v) k = some v := by
  induction st with
  | nil => simp [dictSet, dictGet]
  | cons p rest ih =>
    obtain ⟨k1, v1⟩ := p
    by_cases h : k1 = k
    · simp [dictSet, dictGet, h]
    · simp [dictSet, dictGet, h, ih]

/-- Lookup of a different key is unaffected by a write. -/
theorem dictGet_dictSet_ne (st : SymTable) (k : String) (v : SymEntry) (k' : String)
    (h : k' ≠ k) : dictGet (dictSet st k v) k' = dictGet st k' := by
  induction st with
  | nil => simp [dictSet, dictGet, Ne.symm h]
  | cons p rest ih =>
    obtain ⟨k1, v1⟩ := p
    by_cases h1 : k1 = k
    · subst h1
      simp [dictSet, dictGet, Ne.symm h]
    · by_cases h2 : k1 = k'
      · simp [dictSet, dictGet, h1, h2, h]
      · simp [dictSet, dictGet, h1, h2, ih]

/-- Lookup after deleting a key is absent. -/
theorem dictGet_dictDel_self (st : SymTable) (k : String) :
    dictGet (dictDel st k) k = none := by
  induction st with
  | nil => rfl
  | cons p rest ih =>
    obtain ⟨k1, v1⟩ := p
    by_cases h : k1 = k
    · simp [dictDel, h, ih]
    · simp [dictDel, dictGet, h, ih]

/-- Lookup of a different key is unaffected by a delete. -/
theorem dictGet_dictDel_ne (st : SymTable) (k k' : String) (h : k' ≠ k) :
    dictGet (dictDel st k) k' = dictGet st k' := by
  induction st with
  | nil => rfl
  | cons p rest ih =>
    obtain ⟨k1, v1⟩ := p
    by_cases h1 : k1 = k
    · subst h1
      simp [dictDel, dictGet, Ne.symm h, ih]
    · by_cases h2 : k1 = k'
      · simp [dictDel, dictGet, h1, h2, h]
      · simp [dictDel, dictGet, h1, h2, ih]

/-- A written pair is a member of the written table. -/
theorem mem_dictSet_self (st : SymTable) (k : String) (v : SymEntry) :
    (k, v) ∈ dictSet st k v := by
  induction st with
  | nil => simp [dictSet]
  | cons p rest ih =>
    obtain ⟨k1, v1⟩ := p
    by_cases h : k1 = k
    · simp [dictSet, h]
    · simp only [dictSet, if_neg h]
      exact List.mem_cons_of_mem _ ih

/-- Inversion of a successful `set_symbol`: the symbol was present, the
keywords did not contain `name`, and the result is the in-place merge. -/
theorem set_symbol_ok_inv (ci : Bool) (st : SymTable) (symbol : String) (kwargs : Attrs)
    (st' : SymTable) (h : set_symbol ci st symbol kwargs = Except.ok st') :
    ∃ obj, dictGet st (tr_symbol ci symbol).1 = some obj ∧ kwargs.name = none ∧
      st' = dictSet st (tr_symbol ci symbol).1 (updateEntry obj kwargs) := by
  unfold set_symbol at h
  split at h
  · exact absurd h (by simp)
  next obj heq =>
    split at h
    · exact absurd h (by simp)
    next hname =>
      split at h
      · exact absurd h (by simp)
      · exact ⟨obj, heq, hname, (Except.ok.inj h).symm⟩

/-- Inversion of a successful `add_symbol`: the (translated) name was absent
and the result stores the freshly built entry under it. -/
theorem add_symbol_ok_inv (ci : Bool) (st : SymTable) (symbol sym_type : String)
    (kwargs : Attrs) (st' : SymTable)
    (h : add_symbol ci st symbol sym_type kwargs = Except.ok st') :
    dictGet st (tr_symbol ci symbol).1 = none ∧
    st' = dictSet st (tr_symbol ci symbol).1
      ⟨(tr_symbol ci symbol).1, sym_type, kwargs.lineno, kwargs.usage, kwargs.code, kwargs.pc⟩ := by
  unfold add_symbol at h
  split at h
  · exact absurd h (by simp)
  next heq => exact ⟨heq, (Except.ok.inj h).symm⟩

/-- Inversion of a successful `remove_symbol`: the result is the deletion. -/
theorem remove_symbol_ok_inv (ci : Bool) (st : SymTable) (symbol : String)
    (st' : SymTable) (h : remove_symbol ci st symbol = Except.ok st') :
    st' = dictDel st (tr_symbol ci symbol).1 := by
  unfold remove_symbol at h
  split at h
  · exact (Except.ok.inj h).symm
  · exact absurd h (by simp)

/-- A successful `set_symbol` never changes the `name` attribute of any
entry: the merged keywords are known not to contain `name`. -/
theorem set_symbol_preserves_names (ci : Bool) (st : SymTable) (symbol : String)
    (kwargs : Attrs) (st' : SymTable) (h : set_symbol ci st symbol kwargs = Except.ok st')
    (k : String) (e e' : SymEntry) (he : dictGet st k = some e)
    (he' : dictGet st' k = some e') : e'.name = e.name := by
  obtain ⟨obj, hobj, hname, rfl⟩ := set_symbol_ok_inv ci st symbol kwargs st' h
  by_cases hk : k = (tr_symbol ci symbol).1
  · subst hk
    rw [dictGet_dictSet_self] at he'
    rw [hobj] at he
    have hoe : obj = e := by injection he
    have hee : e' = updateEntry obj kwargs := by injection he'.symm
    subst hoe
    rw [hee]
    simp [updateEntry, hname]
  · rw [dictGet_dictSet_ne _ _ _ _ hk, he] at he'
    rw [Option.some.inj he']

/-- Claim C7 (amended): for every entry in the symbol table, the `name`
attribute is fixed at creation: no public operation that succeeds
(`add_symbol`, `set_symbol`, `remove_symbol`, `increment_symbol_usage`)
ever changes the `name` of an entry that persists across the operation.
The companion counterexample shows that the same is not true of `type`,
which `set_symbol` does not guard. -/
theorem public_ops_preserve_entry_names (ci : Bool) (st : SymTable) (op : TableOp)
    (st' : SymTable) (h : runOp ci st op = Except.ok st') (k : String) (e e' : SymEntry)
    (he : dictGet st k = some e) (he' : dictGet st' k = some e') : e'.name = e.name := by
  cases op with
  | add s ty kw =>
    obtain ⟨habs, rfl⟩ := add_symbol_ok_inv ci st s ty kw st' h
    by_cases hk : k = (tr_symbol ci s).1
    · subst hk
      rw [habs] at he
      exact absurd he (by simp)
    · rw [dictGet_dictSet_ne _ _ _ _ hk, he] at he'
      rw [Option.some.inj he']
  | set s kw => exact set_symbol_preserves_names ci st s kw st' h k e e' he he'
  | remove s =>
    have hdel := remove_symbol_ok_inv ci st s st' h
    subst hdel
    by_cases hk : k = (tr_symbol ci s).1
    · subst hk
      rw [dictGet_dictDel_self] at he'
      exact absurd he' (by simp)
    · rw [dictGet_dictDel_ne _ _ _ hk, he] at he'
      rw [Option.some.inj he']
  | increment s l a =>
    have h2 : increment_symbol_usage ci st s l a = Except.ok st' := h
    unfold increment_symbol_usage at h2
    split at h2
    · exact absurd h2 (by simp)
    · exact set_symbol_preserves_names ci st s _ st' h2 k e e' he he'

/-- Witness for `public_ops_preserve_entry_names`: a successful
`increment_symbol_usage("x", 7, 3)` on a table holding `x` leaves the
entry's `name` unchanged. -/
theorem public_ops_preserve_entry_names_witness :
    (⟨"x", "VAR", none, some 3, none, none⟩ : SymEntry).name =
      (⟨"x", "VAR", none, none, none, none⟩ : SymEntry).name :=
  public_ops_preserve_entry_names false [("x", ⟨"x", "VAR", none, none, none, none⟩)]
    (TableOp.increment "x" 7 3) [("x", ⟨"x", "VAR", none, some 3, none, none⟩)] rfl
    "x" ⟨"x", "VAR", none, none, none, none⟩ ⟨"x", "VAR", none, some 3, none, none⟩ rfl rfl

/-- A character list without a space has no split point. -/
theorem splitAtFirstSpace_eq_none (l : List Char) (h : ' ' ∉ l) :
    splitAtFirstSpace l = none := by
  induction l with
  | nil => rfl
  | cons c cs ih =>
    simp only [List.mem_cons, not_or] at h
    simp [splitAtFirstSpace, Ne.symm h.1, ih h.2]

/-- Python `cmd.split(" ", 1)` on a string without a space yields only the
string itself: there is no name part to unpack. -/
theorem pySplitOnce_no_space (cmd : String) (h : ' ' ∉ cmd.data) :
    pySplitOnce cmd = [cmd] := by
  unfold pySplitOnce
  rw [splitAtFirstSpace_eq_none cmd.data h]

/-- The label-resolution scan can never succeed on a code list containing an
instruction that starts with `LABEL` but has no space: at that instruction
the two-place unpacking of the one-element split raises `ValueError`, and
any earlier instruction either succeeds or raises first. -/
theorem loadCode_no_ok (ci : Bool) (cmd : String) (hlab : pyStartsWith cmd "LABEL" = true)
    (hns : ' ' ∉ cmd.data) :
    ∀ (code : List String), cmd ∈ code → ∀ (st : SymTable) (addr : Nat) (st' : SymTable),
      loadCode ci st addr code ≠ Except.ok st' := by
  intro code
  induction code with
  | nil => intro hmem; cases hmem
  | cons c rest ih =>
    intro hmem st addr st' hok
    rcases List.mem_cons.mp hmem with hc | hrest
    · subst hc
      unfold loadCode at hok
      rw [if_pos hlab, pySplitOnce_no_space _ hns] at hok
      exact absurd hok (by simp)
    · unfold loadCode at hok
      by_cases hl : pyStartsWith c "LABEL" = true
      · rw [if_pos hl] at hok
        split at hok
        · split at hok
          next st2 hss => exact ih hrest st2 (addr + 1) st' hok
          next e2 hss => exact absurd hok (by simp)
        · exact absurd hok (by simp)
      · rw [if_neg hl] at hok
        exact ih hrest st (addr + 1) st' hok

/-- The loader loop can never succeed when some listed function's code
contains a `LABEL`-prefixed instruction without a space. -/
theorem loaderGo_no_ok_of_bad_label (ci : Bool) (f : String) (e : SymEntry)
    (code : List String) (cmd : String) (hcode : e.code = some code) (hcmd : cmd ∈ code)
    (hlab : pyStartsWith cmd "LABEL" = true) (hns : ' ' ∉ cmd.data) :
    ∀ (funcs : List (String × SymEntry)), (f, e) ∈ funcs →
      ∀ (st st' : SymTable), loaderGo ci st funcs ≠ Except.ok st' := by
  intro funcs
  induction funcs with
  | nil => intro hmem; cases hmem
  | cons p rest ih =>
    intro hmem st st' hok
    obtain ⟨g, d⟩ := p
    rcases List.mem_cons.mp hmem with hc | hrest
    · injection hc with hf hd
      subst hf
      subst hd
      unfold loaderGo at hok
      split at hok
      · exact absurd hok (by simp)
      next code2 hc2 =>
        rw [hcode] at hc2
        injection hc2 with hcc
        subst hcc
        split at hok
        next st2 hlc => exact absurd hlc (loadCode_no_ok ci cmd hlab hns code hcmd st 0 st2)
        next e2 hlc => exact absurd hok (by simp)
    · unfold loaderGo at hok
      split at hok
      · exact absurd hok (by simp)
      next code2 hc2 =>
        split at hok
        next st2 hlc => exact ih hrest st2 st' hok
        next e2 hlc => exact absurd hok (by simp)

/-- The loader loop can never succeed when some listed function has no
`code` attribute: reaching that function raises `UndefinedReference`, and
every function before it either succeeds or raises first. -/
theorem loaderGo_no_ok_of_missing_code (ci : Bool) (f : String) (e : SymEntry)
    (hcode : e.code = none) :
    ∀ (funcs : List (String × SymEntry)), (f, e) ∈ funcs →
      ∀ (st st' : SymTable), loaderGo ci st funcs ≠ Except.ok st' := by
  intro funcs
  induction funcs with
  | nil => intro hmem; cases hmem
  | cons p rest ih =>
    intro hmem st st' hok
    obtain ⟨g, d⟩ := p
    rcases List.mem_cons.mp hmem with hc | hrest
    · injection hc with hf hd
      subst hf
      subst hd
      unfold loaderGo at hok
      split at hok
      · exact absurd hok (by simp)
      next code2 hc2 =>
        rw [hcode] at hc2
        exact absurd hc2 (by simp)
    · unfold loaderGo at hok
      split at hok
      · exact absurd hok (by simp)
      next code2 hc2 =>
        split at hok
        next st2 hlc => exact ih hrest st2 st' hok
        next e2 hlc => exact absurd hok (by simp)

/-- Claim C3: running the loader on the spec's example table — a FUNC symbol
with `code = ["LABEL L1", "PUSH 1", "LABEL L2"]` and existing symbols `L1`
and `L2` — succeeds and sets `L1.pc = 0` and `L2.pc = 2`; when the FUNC
symbol with no `code` attribute is the first FUNC-class entry the loader
reaches, it fails with exactly the undefined-reference error naming that
function; and for every table in which some FUNC-class symbol has no `code`
attribute, wherever it sits in the iteration order, the loader never
succeeds (the function itself raises the undefined-reference error, unless
an earlier function already raised). -/
theorem loader_resolves_labels_and_requires_code :
    (loader false loaderDemoTable).map (fun st =>
      ((get_symbol false st "L1").map SymEntry.pc,
       (get_symbol false st "L2").map SymEntry.pc)) =
      Except.ok (some (some 0), some (some 2)) ∧
    (∀ (ci : Bool) (st : SymTable) (f : String) (e : SymEntry)
        (rest : List (String × SymEntry)),
      get_symbols_by_class st "FUNC" = (f, e) :: rest → e.code = none →
      loader ci st = Except.error (PyErr.undefinedReference "FUNCTION" f)) ∧
    (∀ (ci : Bool) (st : SymTable) (f : String) (e : SymEntry),
      (f, e) ∈ get_symbols_by_class st "FUNC" → e.code = none →
      ∀ st', loader ci st ≠ Except.ok st') := by
  refine ⟨rfl, ?_, ?_⟩
  · intro ci st f e rest hsnap hcode
    unfold loader
    rw [hsnap]
    unfold loaderGo
    rw [hcode]
  · intro ci st f e hmem hcode st'
    exact loaderGo_no_ok_of_missing_code ci f e hcode (get_symbols_by_class st "FUNC") hmem st st'

/-- Witness for `loader_resolves_labels_and_requires_code`: on a table whose
only FUNC symbol `G` has no `code`, the loader fails with exactly
`UndefinedReference("FUNCTION", "G")`, and in particular never succeeds. -/
theorem loader_requires_code_witness :
    loader false [("G", ⟨"G", "FUNC", some 1, none, none, none⟩)] =
      Except.error (PyErr.undefinedReference "FUNCTION" "G") ∧
    loader false [("G", ⟨"G", "FUNC", some 1, none, none, none⟩)] ≠ Except.ok [] :=
  ⟨loader_resolves_labels_and_requires_code.2.1 false
      [("G", ⟨"G", "FUNC", some 1, none, none, none⟩)] "G"
      ⟨"G", "FUNC", some 1, none, none, none⟩ [] rfl rfl,
   loader_resolves_labels_and_requires_code.2.2 false
      [("G", ⟨"G", "FUNC", some 1, none, none, none⟩)] "G"
      ⟨"G", "FUNC", some 1, none, none, none⟩ (by decide) rfl []⟩

/-- Claim C8: `get_symbol` is a total lookup that never raises — after a
successful `remove_symbol` the name reads as absent, a never-added name
reads as absent, and a present name reads as its entry — while
`increment_symbol_usage` on an unknown name fails with the
`Unknown symbol` exception. -/
theorem get_symbol_total_and_increment_unknown_fails :
    (∀ (ci : Bool) (st : SymTable) (n : String) (st' : SymTable),
      remove_symbol ci st n = Except.ok st' → get_symbol ci st' n = none) ∧
    (∀ (ci : Bool) (n : String), get_symbol ci ([] : SymTable) n = none) ∧
    (∀ (ci : Bool) (st : SymTable) (n : String) (e : SymEntry),
      dictGet st (tr_symbol ci n).1 = some e → get_symbol ci st n = some e) ∧
    (∀ (ci : Bool) (st : SymTable) (n : String) (l a : Int),
      get_symbol ci st n = none →
      increment_symbol_usage ci st n l a =
        Except.error (PyErr.exception ("Unknown symbol:" ++ toString l ++ ":'" ++ n ++ "'"))) := by
  refine ⟨?_, ?_, ?_, ?_⟩
  · intro ci st n st' h
    have hdel := remove_symbol_ok_inv ci st n st' h
    subst hdel
    unfold get_symbol
    exact dictGet_dictDel_self st (tr_symbol ci n).1
  · intro ci n
    rfl
  · intro ci st n e h
    exact h
  · intro ci st n l a h
    unfold increment_symbol_usage
    rw [h]

/-- Witness for `get_symbol_total_and_increment_unknown_fails`: a lookup of
a never-added name returns the absent indicator, and incrementing the usage
of an unknown name raises. -/
theorem get_symbol_total_witness :
    get_symbol false [] "ghost" = none ∧
    increment_symbol_usage false [] "unknown" 3 1 =
      Except.error (PyErr.exception "Unknown symbol:3:'unknown'") :=
  ⟨get_symbol_total_and_increment_unknown_fails.2.1 false "ghost",
   get_symbol_total_and_increment_unknown_fails.2.2.2 false [] "unknown" 3 1
     (get_symbol_total_and_increment_unknown_fails.2.1 false "unknown")⟩

/-- Claim C9: in case-insensitive mode, every entry created by a successful
`add_symbol` stores the uppercase-normalized spelling as its `name`
attribute and is keyed in the table under that normalized spelling, and
`get_symbols_by_class` consequently returns the normalized key. -/
theorem add_symbol_normalizes_name (st : SymTable) (n ty : String) (kwargs : Attrs)
    (st' : SymTable) (h : add_symbol true st n ty kwargs = Except.ok st') :
    ∃ e : SymEntry, e.name = pyUpper n ∧ e.type = ty ∧
      dictGet st' (pyUpper n) = some e ∧ (pyUpper n, e) ∈ get_symbols_by_class st' ty := by
  obtain ⟨habs, rfl⟩ := add_symbol_ok_inv true st n ty kwargs st' h
  refine ⟨⟨pyUpper n, ty, kwargs.lineno, kwargs.usage, kwargs.code, kwargs.pc⟩,
    rfl, rfl, ?_, ?_⟩
  · exact dictGet_dictSet_self st (pyUpper n) _
  · unfold get_symbols_by_class
    refine List.mem_filter.mpr ⟨mem_dictSet_self st (pyUpper n) _, ?_⟩
    simp

/-- Witness for `add_symbol_normalizes_name`: adding `Foo` in
case-insensitive mode stores and keys the entry as `FOO`. -/
theorem add_symbol_normalizes_name_witness :
    ∃ e : SymEntry, e.name = pyUpper "Foo" ∧ e.type = "VAR" ∧
      dictGet [("FOO", ⟨"FOO", "VAR", none, none, none, none⟩)] (pyUpper "Foo") = some e ∧
      (pyUpper "Foo", e) ∈
        get_symbols_by_class [("FOO", ⟨"FOO", "VAR", none, none, none, none⟩)] "VAR" :=
  add_symbol_normalizes_name [] "Foo" "VAR" emptyAttrs
    [("FOO", ⟨"FOO", "VAR", none, none, none, none⟩)] rfl

/-- Claim C10: if any FUNC-class symbol's code contains an instruction that
starts with `LABEL` but contains no space (such as the bare `"LABEL"`), the
split of that instruction yields only the instruction itself — no name part
— and the loader can never succeed on the table: it fails at that
instruction with `ValueError` (unless an earlier instruction or function
already failed), never skipping it or resolving a label from it. -/
theorem loader_bare_label_fails (ci : Bool) (st : SymTable) (f : String) (e : SymEntry)
    (code : List String) (cmd : String) (hmem : (f, e) ∈ get_symbols_by_class st "FUNC")
    (hcode : e.code = some code) (hcmd : cmd ∈ code)
    (hlab : pyStartsWith cmd "LABEL" = true) (hns : ' ' ∉ cmd.data) :
    pySplitOnce cmd = [cmd] ∧ ∀ st', loader ci st ≠ Except.ok st' :=
  ⟨pySplitOnce_no_space cmd hns,
   fun st' => loaderGo_no_ok_of_bad_label ci f e code cmd hcode hcmd hlab hns
     (get_symbols_by_class st "FUNC") hmem st st'⟩

/-- Witness for `loader_bare_label_fails`: a FUNC symbol whose code is the
single bare instruction `"LABEL"` makes the loader fail. -/
theorem loader_bare_label_fails_witness :
    pySplitOnce "LABEL" = ["LABEL"] ∧
    loader false [("F", ⟨"F", "FUNC", none, none, some ["LABEL"], none⟩)] ≠ Except.ok [] := by
  have h := loader_bare_label_fails false
    [("F", ⟨"F", "FUNC", none, none, some ["LABEL"], none⟩)] "F"
    ⟨"F", "FUNC", none, none, some ["LABEL"], none⟩ ["LABEL"] "LABEL"
    (by decide) rfl (by decide) (by decide) (by decide)
  exact ⟨h.1, h.2 []⟩
